import Mathlib

/-!
Verification development for the drone-alertmanager plugin
(src/docker-entrypoint.py).  Python strings are modelled as `List Char`,
the process environment and Python dicts as association lists, fallible
Python code as `Except`, and the HTTP transport as an explicit outcome
datatype fed to the shallowly embedded control flow of the script.
-/

namespace DroneAM

/-- Python strings are modelled as lists of characters. -/
abbrev Str := List Char

/-! ## strip_version (docker-entrypoint.py lines 38-43) -/

/-- One step of the regex `[0-9]+` followed by a continuation: succeeds when
the input starts with a non-empty run of ASCII digits, and hands the greedy
remainder to the continuation. -/
def digitsThen (k : Str → Bool) (s : Str) : Bool :=
  !(s.takeWhile Char.isDigit).isEmpty && k (s.dropWhile Char.isDigit)

/-- A literal dot followed by a continuation. -/
def dotThen (k : Str → Bool) (s : Str) : Bool :=
  match s with
  | c :: rest => decide (c = '.') && k rest
  | [] => false

/-- Embeds the regex test `re.match(r"^v[0-9]+\.[0-9]+\.[0-9]+", input)`
of `strip_version` (docker-entrypoint.py line 40): an anchored match of
`v`, digits, dot, digits, dot, digits, then anything. -/
def versionPatMatch (s : Str) : Bool :=
  match s with
  | c :: rest =>
      decide (c = 'v') &&
        digitsThen (dotThen (digitsThen (dotThen (digitsThen (fun _ => true))))) rest
  | [] => false

/-- Embeds `strip_version` (docker-entrypoint.py lines 38-43): drop the
leading character (`input[1:]`) when the version regex matches, otherwise
return the input unchanged. -/
def strip_version (s : Str) : Str :=
  if versionPatMatch s then s.tail else s

/-- Specification-side reading of the pattern `v<digits>.<digits>.<digits>`
at the start of the string, written as an explicit decomposition. -/
def versionSpec (s : Str) : Prop :=
  ∃ a b c rest : Str, a ≠ [] ∧ b ≠ [] ∧ c ≠ [] ∧
    (∀ ch ∈ a, ch.isDigit = true) ∧ (∀ ch ∈ b, ch.isDigit = true) ∧
    (∀ ch ∈ c, ch.isDigit = true) ∧
    s = 'v' :: (a ++ '.' :: (b ++ '.' :: (c ++ rest)))

lemma span_digits_dot (a t : Str) (ha : ∀ ch ∈ a, Char.isDigit ch = true) :
    ((a ++ '.' :: t).takeWhile Char.isDigit = a) ∧
    ((a ++ '.' :: t).dropWhile Char.isDigit = '.' :: t) := by
  induction a with
  | nil => simp [List.takeWhile, List.dropWhile]
  | cons c cs ih =>
    have hc : Char.isDigit c = true := ha c (by simp)
    have hrec := ih (fun ch hch => ha ch (by simp [hch]))
    simp [List.takeWhile, List.dropWhile, hc, hrec.1, hrec.2]

lemma takeWhile_nonempty_of_append (a t : Str) (hne : a ≠ [])
    (ha : ∀ ch ∈ a, Char.isDigit ch = true) :
    ((a ++ t).takeWhile Char.isDigit).isEmpty = false := by
  cases a with
  | nil => exact absurd rfl hne
  | cons c cs =>
    have hc : Char.isDigit c = true := ha c (by simp)
    simp [List.takeWhile, hc]

lemma digits_dot_iff (k : Str → Bool) (s : Str) :
    digitsThen (dotThen k) s = true ↔
      ∃ a t, a ≠ [] ∧ (∀ ch ∈ a, Char.isDigit ch = true) ∧
        s = a ++ '.' :: t ∧ k t = true := by
  constructor
  · intro h
    have h1 : ((s.takeWhile Char.isDigit).isEmpty = false) ∧
        dotThen k (s.dropWhile Char.isDigit) = true := by
      simpa [digitsThen, Bool.and_eq_true] using h
    rcases h1 with ⟨hne, hdot⟩
    cases hdrop : s.dropWhile Char.isDigit with
    | nil => rw [hdrop] at hdot; simp [dotThen] at hdot
    | cons c rest =>
      rw [hdrop] at hdot
      have hc : c = '.' ∧ k rest = true := by
        simpa [dotThen, Bool.and_eq_true] using hdot
      refine ⟨s.takeWhile Char.isDigit, rest, ?_, ?_, ?_, hc.2⟩
      · intro habs; rw [habs] at hne; simp at hne
      · intro ch hch; exact List.mem_takeWhile_imp hch
      · have := List.takeWhile_append_dropWhile (p := Char.isDigit) (l := s)
        rw [hdrop, hc.1] at this
        exact this.symm
  · rintro ⟨a, t, hne, ha, rfl, hk⟩
    have hspan := span_digits_dot a t ha
    simp [digitsThen, hspan.1, hspan.2, dotThen, hk]
    intro habs; rw [habs] at hne; simp at hne

lemma digits_any_iff (s : Str) :
    digitsThen (fun _ => true) s = true ↔
      ∃ a t, a ≠ [] ∧ (∀ ch ∈ a, Char.isDigit ch = true) ∧ s = a ++ t := by
  constructor
  · intro h
    have hne : (s.takeWhile Char.isDigit).isEmpty = false := by
      simpa [digitsThen, Bool.and_eq_true] using h
    refine ⟨s.takeWhile Char.isDigit, s.dropWhile Char.isDigit, ?_, ?_, ?_⟩
    · intro habs; rw [habs] at hne; simp at hne
    · intro ch hch; exact List.mem_takeWhile_imp hch
    · exact (List.takeWhile_append_dropWhile (p := Char.isDigit) (l := s)).symm
  · rintro ⟨a, t, hne, ha, rfl⟩
    simp [digitsThen, takeWhile_nonempty_of_append a t hne ha]

lemma versionPatMatch_iff (s : Str) : versionPatMatch s = true ↔ versionSpec s := by
  constructor
  · intro h
    cases s with
    | nil => simp [versionPatMatch] at h
    | cons c rest =>
      have h1 : c = 'v' ∧
          digitsThen (dotThen (digitsThen (dotThen (digitsThen (fun _ => true))))) rest
            = true := by
        simpa [versionPatMatch, Bool.and_eq_true] using h
      rcases h1 with ⟨rfl, h2⟩
      rcases (digits_dot_iff _ rest).1 h2 with ⟨a, t1, hane, hadig, rfl, h3⟩
      rcases (digits_dot_iff _ t1).1 h3 with ⟨b, t2, hbne, hbdig, rfl, h4⟩
      rcases (digits_any_iff t2).1 h4 with ⟨cc, t3, hcne, hcdig, rfl⟩
      exact ⟨a, b, cc, t3, hane, hbne, hcne, hadig, hbdig, hcdig, rfl⟩
  · rintro ⟨a, b, c, rest, hane, hbne, hcne, hadig, hbdig, hcdig, rfl⟩
    have h4 : digitsThen (fun _ => true) (c ++ rest) = true :=
      (digits_any_iff _).2 ⟨c, rest, hcne, hcdig, rfl⟩
    have h3 : digitsThen (dotThen (digitsThen (fun _ => true))) (b ++ '.' :: (c ++ rest))
        = true :=
      (digits_dot_iff _ _).2 ⟨b, c ++ rest, hbne, hbdig, rfl, h4⟩
    have h2 : digitsThen (dotThen (digitsThen (dotThen (digitsThen (fun _ => true)))))
        (a ++ '.' :: (b ++ '.' :: (c ++ rest))) = true :=
      (digits_dot_iff _ _).2 ⟨a, b ++ '.' :: (c ++ rest), hane, hadig, rfl, h3⟩
    simp [versionPatMatch, h2]

/-- Claim C8: `strip_version` removes exactly the leading `v` when the input
matches `v<digits>.<digits>.<digits>` at its start and returns the input
unchanged otherwise; in particular on "v1.2.3", "1.2.3" and "v1.2". -/
theorem claim_C8 :
    (∀ s : Str, versionSpec s → strip_version s = s.tail) ∧
    (∀ s : Str, ¬ versionSpec s → strip_version s = s) ∧
    strip_version "v1.2.3".data = "1.2.3".data ∧
    strip_version "1.2.3".data = "1.2.3".data ∧
    strip_version "v1.2".data = "v1.2".data := by
  refine ⟨?_, ?_, by decide, by decide, by decide⟩
  · intro s hs
    simp [strip_version, (versionPatMatch_iff s).2 hs]
  · intro s hs
    have : versionPatMatch s = false := by
      cases hpm : versionPatMatch s with
      | false => rfl
      | true => exact absurd ((versionPatMatch_iff s).1 hpm) hs
    simp [strip_version, this]

/-- Witness for claim C8: a concrete string satisfying the version pattern on
which the theorem yields the stripped result. -/
theorem claim_C8_witness :
    versionSpec "v9.10.11-rc".data ∧ strip_version "v9.10.11-rc".data = "9.10.11-rc".data := by
  have hspec : versionSpec "v9.10.11-rc".data :=
    ⟨['9'], ['1', '0'], ['1', '1'], "-rc".data,
      by decide, by decide, by decide, by decide, by decide, by decide, by decide⟩
  exact ⟨hspec, claim_C8.1 "v9.10.11-rc".data hspec⟩

/-! ## mandatory filter (docker-entrypoint.py lines 50-68) -/

/-- A Jinja value reaching the `mandatory` filter: either an `Undefined`
carrying an optional variable name, or a defined value. -/
inductive JValue where
  | undef (uname : Option Str)
  | val (v : Str)
deriving DecidableEq

/-- Python `str.lower()` restricted to its ASCII behaviour. -/
def pyLower (s : Str) : Str := s.map Char.toLower

/-- Embeds `mandatory` (docker-entrypoint.py lines 50-68): undefined input
raises `TemplateRuntimeError` (modelled as `Except.error` with the message),
with the message special-cased on `name[:7] == 'PLUGIN_'`; defined input is
passed through unchanged. -/
def mandatory (input : JValue) (msg : Option Str) : Except Str JValue :=
  match input with
  | .val v => .ok (.val v)
  | .undef uname =>
    let name := uname.getD []
    match msg with
    | some m => .error m
    | none =>
      if name.take 7 = "PLUGIN_".data then
        .error ("Mandatory option \"".data ++ pyLower (name.drop 7) ++
          "\" is not defined in plugin settings".data)
      else
        .error ("Mandatory variable \"".data ++ name ++
          "\" is not defined via environment".data)

/-- Claim C7: an undefined reference named `PLUGIN_<rest>` fails naming the
lower-cased `<rest>` as a settings option, any other undefined reference
fails naming the variable itself, and a defined value passes through
unchanged. -/
theorem claim_C7 :
    (∀ rest : Str, mandatory (.undef (some ("PLUGIN_".data ++ rest))) none =
      .error ("Mandatory option \"".data ++ pyLower rest ++
        "\" is not defined in plugin settings".data)) ∧
    (∀ name : Str, name.take 7 ≠ "PLUGIN_".data →
      mandatory (.undef (some name)) none =
        .error ("Mandatory variable \"".data ++ name ++
          "\" is not defined via environment".data)) ∧
    (∀ v : Str, ∀ msg : Option Str, mandatory (.val v) msg = .ok (.val v)) := by
  refine ⟨?_, ?_, ?_⟩
  · intro rest
    have htake : ("PLUGIN_".data ++ rest).take 7 = "PLUGIN_".data := by simp
    have hdrop : ("PLUGIN_".data ++ rest).drop 7 = rest := by simp
    simp [mandatory, htake, hdrop]
  · intro name hname
    simp [mandatory, hname]
  · intro v msg
    simp [mandatory]

/-- Witness for claim C7: `PLUGIN_FOO` is reported as option "foo", `BAR` is
reported as variable "BAR", defined values pass through. -/
theorem claim_C7_witness :
    mandatory (.undef (some "PLUGIN_FOO".data)) none =
      .error "Mandatory option \"foo\" is not defined in plugin settings".data ∧
    mandatory (.undef (some "BAR".data)) none =
      .error "Mandatory variable \"BAR\" is not defined via environment".data ∧
    mandatory (.val "x".data) none = .ok (.val "x".data) := by
  exact ⟨claim_C7.1 "FOO".data, claim_C7.2.1 "BAR".data (by decide),
    claim_C7.2.2 "x".data none⟩

/-! ## Process environment model and the duration fields
(docker-entrypoint.py lines 90-103 and 233-238) -/

/-- The ambient process environment, as an association list; `env_set`
prepends, so lookups see the newest binding. -/
abbrev EnvT := List (Str × Str)

/-- Lookup in the environment (`os.environ.get`). -/
def env_get (env : EnvT) (k : Str) : Option Str :=
  (env.find? (fun p => decide (p.1 = k))).map Prod.snd

/-- Assignment `os.environ[k] = v`. -/
def env_set (env : EnvT) (k v : Str) : EnvT := (k, v) :: env

/-- Embeds `from_env` (lines 95-97): read a variable or return the default
empty string. -/
def from_env (env : EnvT) (k : Str) : Str := (env_get env k).getD []

/-- Embeds `in_env` (lines 90-92): the variable is present and non-empty. -/
def in_env (env : EnvT) (k : Str) : Bool := decide (from_env env k ≠ [])

/-- An uncaught Python exception, used where the script would crash. -/
inductive PyErr where
  | valueError
deriving DecidableEq

def digitsVal (l : Str) : Nat :=
  l.foldl (fun a c => a * 10 + (c.toNat - '0'.toNat)) 0

def pyIntNat (l : Str) : Option Nat :=
  if l ≠ [] ∧ l.all Char.isDigit then some (digitsVal l) else none

/-- Models Python `int()` on an optionally signed decimal string (no
surrounding whitespace); `none` where `int()` would raise `ValueError`. -/
def pyInt : Str → Option Int
  | '-' :: rest => (pyIntNat rest).map (fun n => -(n : Int))
  | '+' :: rest => (pyIntNat rest).map (fun n => (n : Int))
  | l => (pyIntNat l).map (fun n => (n : Int))

def natStr (n : Nat) : Str := (Nat.repr n).data

def intStr (i : Int) : Str := (Int.repr i).data

/-- Python `"%02d"` for the minute and second fields. -/
def two_digits (n : Nat) : Str := if n < 10 then '0' :: natStr n else natStr n

/-- Models `str(datetime.timedelta(seconds=total))`: the delta is normalised
to days (floor division) plus a seconds remainder in `[0, 86400)`, printed as
`H:MM:SS` with a leading `D day(s), ` part when the day count is non-zero. -/
def timedeltaStr (total : Int) : Str :=
  let days := Int.fdiv total 86400
  let rem := (Int.fmod total 86400).toNat
  let hh := rem / 3600
  let mm := rem % 3600 / 60
  let ss := rem % 60
  let hms := natStr hh ++ ':' :: (two_digits mm ++ ':' :: two_digits ss)
  if days = 0 then hms
  else intStr days ++ (if days = 1 ∨ days = -1 then " day, ".data else " days, ".data) ++ hms

/-- Embeds `timestamp_diff` (lines 100-103) after the `int()` parses:
`str(datetime.timedelta(seconds=int(end) - int(start)))`. -/
def timestamp_diff (start finish : Int) : Str := timedeltaStr (finish - start)

def drone_started : Str := "DRONE_BUILD_STARTED".data
def drone_finished : Str := "DRONE_BUILD_FINISHED".data
def drone_created : Str := "DRONE_BUILD_CREATED".data
def drone_totaltime : Str := "DRONE_BUILD_TOTALTIME".data
def drone_queuedtime : Str := "DRONE_BUILD_QUEUEDTIME".data

/-- Embeds lines 233-235 of `make_request`: when start and finish are both
present, write the formatted total time back into the environment; a
non-numeric value makes `int()` raise. -/
def update_total_time (env : EnvT) : Except PyErr EnvT :=
  if in_env env drone_started && in_env env drone_finished then
    match pyInt (from_env env drone_started), pyInt (from_env env drone_finished) with
    | some s, some f => .ok (env_set env drone_totaltime (timestamp_diff s f))
    | _, _ => .error .valueError
  else .ok env

/-- Embeds lines 236-238 of `make_request`: the queued-time counterpart. -/
def update_queued_time (env : EnvT) : Except PyErr EnvT :=
  if in_env env drone_created && in_env env drone_started then
    match pyInt (from_env env drone_created), pyInt (from_env env drone_started) with
    | some c, some s => .ok (env_set env drone_queuedtime (timestamp_diff c s))
    | _, _ => .error .valueError
  else .ok env

/-- Embeds the duration prelude of `make_request` (lines 233-238):
total time first, then queued time. -/
def make_request_durations (env : EnvT) : Except PyErr EnvT :=
  match update_total_time env with
  | .error e => .error e
  | .ok env2 => update_queued_time env2

lemma env_get_set_same (env : EnvT) (k v : Str) :
    env_get (env_set env k v) k = some v := by
  simp [env_get, env_set, List.find?]

lemma env_get_set_other (env : EnvT) (k v k2 : Str) (h : k2 ≠ k) :
    env_get (env_set env k v) k2 = env_get env k2 := by
  have : decide (k = k2) = false := by
    simpa using fun habs => h habs.symm
  simp [env_get, env_set, List.find?, this]

lemma pyInt_ne_nil (l : Str) (i : Int) (h : pyInt l = some i) : l ≠ [] := by
  intro habs
  rw [habs] at h
  simp [pyInt, pyIntNat] at h

lemma update_total_time_ok (env : EnvT) (s f : Int)
    (hs : pyInt (from_env env drone_started) = some s)
    (hf : pyInt (from_env env drone_finished) = some f) :
    update_total_time env = .ok (env_set env drone_totaltime (timestamp_diff s f)) := by
  have h1 : in_env env drone_started = true := by
    simp [in_env]; exact pyInt_ne_nil _ _ hs
  have h2 : in_env env drone_finished = true := by
    simp [in_env]; exact pyInt_ne_nil _ _ hf
  simp [update_total_time, h1, h2, hs, hf]

lemma update_queued_time_ok (env : EnvT) (c s : Int)
    (hc : pyInt (from_env env drone_created) = some c)
    (hs : pyInt (from_env env drone_started) = some s) :
    update_queued_time env = .ok (env_set env drone_queuedtime (timestamp_diff c s)) := by
  have h1 : in_env env drone_created = true := by
    simp [in_env]; exact pyInt_ne_nil _ _ hc
  have h2 : in_env env drone_started = true := by
    simp [in_env]; exact pyInt_ne_nil _ _ hs
  simp [update_queued_time, h1, h2, hc, hs]

lemma update_total_time_skip (env : EnvT)
    (h : in_env env drone_started = false ∨ in_env env drone_finished = false) :
    update_total_time env = .ok env := by
  rcases h with h | h <;> simp [update_total_time, h]

lemma update_queued_time_skip (env : EnvT)
    (h : in_env env drone_created = false ∨ in_env env drone_started = false) :
    update_queued_time env = .ok env := by
  rcases h with h | h <;> simp [update_queued_time, h]

lemma update_total_time_get (env env2 : EnvT) (k : Str) (hk : k ≠ drone_totaltime)
    (h : update_total_time env = .ok env2) : env_get env2 k = env_get env k := by
  unfold update_total_time at h
  by_cases hc : (in_env env drone_started && in_env env drone_finished) = true
  · rw [if_pos hc] at h
    cases h1 : pyInt (from_env env drone_started) with
    | none => rw [h1] at h; simp at h
    | some s =>
      cases h2 : pyInt (from_env env drone_finished) with
      | none => rw [h1, h2] at h; simp at h
      | some f =>
        rw [h1, h2] at h
        simp at h
        rw [← h]
        exact env_get_set_other env _ _ k hk
  · rw [if_neg hc] at h
    simp at h
    rw [h]

lemma update_queued_time_get (env env2 : EnvT) (k : Str) (hk : k ≠ drone_queuedtime)
    (h : update_queued_time env = .ok env2) : env_get env2 k = env_get env k := by
  unfold update_queued_time at h
  by_cases hc : (in_env env drone_created && in_env env drone_started) = true
  · rw [if_pos hc] at h
    cases h1 : pyInt (from_env env drone_created) with
    | none => rw [h1] at h; simp at h
    | some c =>
      cases h2 : pyInt (from_env env drone_started) with
      | none => rw [h1, h2] at h; simp at h
      | some s =>
        rw [h1, h2] at h
        simp at h
        rw [← h]
        exact env_get_set_other env _ _ k hk
  · rw [if_neg hc] at h
    simp at h
    rw [h]

lemma durations_split (env env2 : EnvT) (h : make_request_durations env = .ok env2) :
    ∃ env1, update_total_time env = .ok env1 ∧ update_queued_time env1 = .ok env2 := by
  unfold make_request_durations at h
  cases h1 : update_total_time env with
  | error e => rw [h1] at h; simp at h
  | ok env1 => rw [h1] at h; exact ⟨env1, rfl, h⟩

/-- Claim C6: total time is written back (as the timedelta rendering of
finish minus start) exactly when both endpoints are present, queued time
likewise for created/started; the format is `H:MM:SS` (or with a leading
day count), not raw seconds; concretely 1000 to 3661 gives "0:44:21". -/
theorem claim_C6 :
    (∀ env env2 : EnvT, ∀ s f : Int,
      pyInt (from_env env drone_started) = some s →
      pyInt (from_env env drone_finished) = some f →
      make_request_durations env = .ok env2 →
      env_get env2 drone_totaltime = some (timedeltaStr (f - s))) ∧
    (∀ env env2 : EnvT,
      in_env env drone_started = false ∨ in_env env drone_finished = false →
      make_request_durations env = .ok env2 →
      env_get env2 drone_totaltime = env_get env drone_totaltime) ∧
    (∀ env env2 : EnvT, ∀ c s : Int,
      pyInt (from_env env drone_created) = some c →
      pyInt (from_env env drone_started) = some s →
      make_request_durations env = .ok env2 →
      env_get env2 drone_queuedtime = some (timedeltaStr (s - c))) ∧
    (∀ env env2 : EnvT,
      in_env env drone_created = false ∨ in_env env drone_started = false →
      make_request_durations env = .ok env2 →
      env_get env2 drone_queuedtime = env_get env drone_queuedtime) ∧
    timestamp_diff 1000 3661 = "0:44:21".data ∧
    timestamp_diff 1000 3661 ≠ "2661".data ∧
    timedeltaStr 90061 = "1 day, 1:01:01".data := by
  refine ⟨?_, ?_, ?_, ?_, by decide, by decide, by decide⟩
  · intro env env2 s f hs hf hmk
    rcases durations_split env env2 hmk with ⟨env1, htot, hq⟩
    rw [update_total_time_ok env s f hs hf] at htot
    have henv1 : env1 = env_set env drone_totaltime (timestamp_diff s f) := by
      cases htot; rfl
    rw [update_queued_time_get env1 env2 drone_totaltime (by decide) hq, henv1,
      env_get_set_same]
    rfl
  · intro env env2 hmiss hmk
    rcases durations_split env env2 hmk with ⟨env1, htot, hq⟩
    rw [update_total_time_skip env hmiss] at htot
    have henv1 : env1 = env := by cases htot; rfl
    rw [update_queued_time_get env1 env2 drone_totaltime (by decide) hq, henv1]
  · intro env env2 c s hc hs hmk
    rcases durations_split env env2 hmk with ⟨env1, htot, hq⟩
    have hc1 : pyInt (from_env env1 drone_created) = some c := by
      have := update_total_time_get env env1 drone_created (by decide) htot
      simp only [from_env, this]
      exact hc
    have hs1 : pyInt (from_env env1 drone_started) = some s := by
      have := update_total_time_get env env1 drone_started (by decide) htot
      simp only [from_env, this]
      exact hs
    rw [update_queued_time_ok env1 c s hc1 hs1] at hq
    have henv2 : env2 = env_set env1 drone_queuedtime (timestamp_diff c s) := by
      cases hq; rfl
    rw [henv2, env_get_set_same]
    rfl
  · intro env env2 hmiss hmk
    rcases durations_split env env2 hmk with ⟨env1, htot, hq⟩
    have hmiss1 : in_env env1 drone_created = false ∨ in_env env1 drone_started = false := by
      rcases hmiss with h | h
      · left
        rw [← h]
        simp only [in_env, from_env, update_total_time_get env env1 drone_created (by decide) htot]
      · right
        rw [← h]
        simp only [in_env, from_env, update_total_time_get env env1 drone_started (by decide) htot]
    rw [update_queued_time_skip env1 hmiss1] at hq
    have henv2 : env2 = env1 := by cases hq; rfl
    rw [henv2]
    exact update_total_time_get env env1 drone_queuedtime (by decide) htot

/-- Witness for claim C6: with started=1000 and finished=3661 in the
environment (and no created timestamp), the prelude writes "0:44:21". -/
theorem claim_C6_witness :
    env_get [(drone_totaltime, "0:44:21".data), (drone_started, "1000".data),
        (drone_finished, "3661".data)] drone_totaltime =
      some (timedeltaStr ((3661 : Int) - 1000)) :=
  claim_C6.1 [(drone_started, "1000".data), (drone_finished, "3661".data)]
    [(drone_totaltime, "0:44:21".data), (drone_started, "1000".data),
      (drone_finished, "3661".data)]
    1000 3661 (by decide) (by decide) (by rfl)

/-! ## Deploy-target token substitution (docker-entrypoint.py lines 173-189,
the replace_macroses post-render step) -/

/-- Does the string start with the given pattern? -/
def startsWithPat : Str → Str → Bool
  | _, [] => true
  | [], _ :: _ => false
  | c :: cs, p :: ps => decide (c = p) && startsWithPat cs ps

/-- Python substring containment (`pat in s`). -/
def containsPat : Str → Str → Bool
  | [], pat => startsWithPat [] pat
  | c :: cs, pat => startsWithPat (c :: cs) pat || containsPat cs pat

/-- Fuelled scanner for `replaceAll`; every step consumes at least one
character, so fuel equal to the input length never runs out. -/
def replaceAllGo (pat rep : Str) : Nat → Str → Str
  | _, [] => []
  | 0, l => l
  | n + 1, c :: cs =>
    if startsWithPat (c :: cs) pat && !pat.isEmpty then
      rep ++ replaceAllGo pat rep n (cs.drop (pat.length - 1))
    else c :: replaceAllGo pat rep n cs

/-- Python `str.replace(pat, rep)`: replace every non-overlapping occurrence
of a non-empty pattern, scanning left to right. -/
def replaceAll (pat rep l : Str) : Str := replaceAllGo pat rep l.length l

/-- The fatal outcomes of the post-render step (each is a `fatal_error`,
exiting the process). -/
inductive TokenErr where
  | eventNotSupported
  | deployToEmpty
deriving DecidableEq

/-- The literal placeholder the payload may carry. -/
def deploy_token : Str := "\x7b\x7bdeploy_target\x7d\x7d".data

/-- Embeds `replace_macroses` (docker-entrypoint.py lines 173-189): payloads
without the placeholder pass through; with the placeholder, the build event
must be promote or rollback and `DRONE_DEPLOY_TO` (here an `Option` per the
`from_env(.., None)` default) must be non-empty, else the run is fatal;
otherwise every occurrence is substituted. -/
def replace_tokens (build_event : Str) (deploy_to : Option Str) (raw : Str) :
    Except TokenErr Str :=
  if containsPat raw deploy_token = false then .ok raw
  else if build_event ≠ "promote".data ∧ build_event ≠ "rollback".data then
    .error .eventNotSupported
  else match deploy_to with
    | none => .error .deployToEmpty
    | some v => if v = [] then .error .deployToEmpty
                else .ok (replaceAll deploy_token v raw)

/-- Claim C5: a payload without the token is returned unchanged; with the
token, any event other than promote/rollback is fatal regardless of the
deploy-target value; for promote/rollback an absent or empty deploy target
is fatal and otherwise every token occurrence is replaced; concretely the
promote/prod example substitutes and the push example is fatal. -/
theorem claim_C5 :
    (∀ ev : Str, ∀ dep : Option Str, ∀ raw : Str,
      containsPat raw deploy_token = false → replace_tokens ev dep raw = .ok raw) ∧
    (∀ ev : Str, ∀ dep : Option Str, ∀ raw : Str,
      containsPat raw deploy_token = true →
      ev ≠ "promote".data → ev ≠ "rollback".data →
      replace_tokens ev dep raw = .error .eventNotSupported) ∧
    (∀ ev raw : Str, containsPat raw deploy_token = true →
      (ev = "promote".data ∨ ev = "rollback".data) →
      replace_tokens ev none raw = .error .deployToEmpty ∧
      replace_tokens ev (some []) raw = .error .deployToEmpty ∧
      (∀ v : Str, v ≠ [] →
        replace_tokens ev (some v) raw = .ok (replaceAll deploy_token v raw))) ∧
    replace_tokens "promote".data (some "prod".data)
        "deploy to \x7b\x7bdeploy_target\x7d\x7d now".data =
      .ok "deploy to prod now".data ∧
    replace_tokens "push".data (some "prod".data)
        "deploy to \x7b\x7bdeploy_target\x7d\x7d now".data =
      .error .eventNotSupported := by
  refine ⟨?_, ?_, ?_, by rfl, by rfl⟩
  · intro ev dep raw h
    simp [replace_tokens, h]
  · intro ev dep raw h h1 h2
    simp [replace_tokens, h, h1, h2]
  · intro ev raw h hev
    have hne : ¬ (ev ≠ "promote".data ∧ ev ≠ "rollback".data) := by
      rcases hev with rfl | rfl <;> simp
    refine ⟨?_, ?_, ?_⟩
    · simp [replace_tokens, h, hne]
    · simp [replace_tokens, h, hne]
    · intro v hv
      simp [replace_tokens, h, hne, hv]

/-- Witness for claim C5: a token-free payload passes through, and a
token-carrying payload on promote with an absent deploy target is fatal. -/
theorem claim_C5_witness :
    replace_tokens "push".data (some "prod".data) "hello".data = .ok "hello".data ∧
    replace_tokens "promote".data none "x \x7b\x7bdeploy_target\x7d\x7d".data =
      .error .deployToEmpty :=
  ⟨claim_C5.1 "push".data (some "prod".data) "hello".data (by rfl),
    (claim_C5.2.2.1 "promote".data "x \x7b\x7bdeploy_target\x7d\x7d".data
      (by rfl) (Or.inl rfl)).1⟩

/-! ## Silences and the search loop (docker-entrypoint.py lines 114-123 and
137-170) -/

/-- One label matcher of a silence (`{name, value, isRegex, isEqual}`). -/
structure Matcher where
  name : Str
  value : Str
  isRegex : Bool
  isEqual : Bool
deriving DecidableEq

/-- A decoded backend silence entry, with the fields the search loop reads. -/
structure Silence where
  id : Str
  state : Str
  createdBy : Str
  comment : Str
  matchers : List Matcher
deriving DecidableEq

/-- Line 23: the fixed user-agent constant. -/
def plugin_user_agent : Str := "drone/alertmanager".data

/-- Embeds `silence_author` (lines 114-116). -/
def silence_author : Str := plugin_user_agent

/-- Embeds `silence_comment` (lines 119-123): the deterministic comment
derived from the build context. -/
def silence_comment (buildNumber owner repoName link : Str) : Str :=
  "Created for build#".data ++ buildNumber ++ " of ".data ++ owner ++ "/".data ++
    repoName ++ ", see ".data ++ link

/-- The values `find_silences` compares against: author, comment, the
strict-match flag and the matcher set loaded from the template set's
`_matchers` artifact (lines 142-147). -/
structure Fingerprint where
  author : Str
  comment : Str
  strict : Bool
  matchers : List Matcher

/-- Embeds the `for target_silence in silences_list` loop of `find_silences`
(lines 157-166), accumulating matching identifiers in iteration order. -/
def find_loop (fp : Fingerprint) : List Silence → List Str → List Str
  | [], acc => acc
  | s :: rest, acc =>
    if s.state = "expired".data then find_loop fp rest acc
    else if s.createdBy ≠ fp.author then find_loop fp rest acc
    else if s.comment ≠ fp.comment then find_loop fp rest acc
    else if !fp.strict || (fp.strict && decide (s.matchers = fp.matchers)) then
      find_loop fp rest (acc ++ [s.id])
    else find_loop fp rest acc

/-- Specification-side selection predicate, written from the claim: not
expired, author and comment equal, and under strict matching the matcher
set exactly equal. -/
def find_match_spec (fp : Fingerprint) (s : Silence) : Bool :=
  decide (s.state ≠ "expired".data) && decide (s.createdBy = fp.author) &&
    decide (s.comment = fp.comment) &&
    (if fp.strict then decide (s.matchers = fp.matchers) else true)

lemma find_loop_spec (fp : Fingerprint) (ss : List Silence) (acc : List Str) :
    find_loop fp ss acc = acc ++ (ss.filter (find_match_spec fp)).map Silence.id := by
  induction ss generalizing acc with
  | nil => simp [find_loop]
  | cons s rest ih =>
    by_cases h1 : s.state = "expired".data
    · have hm : find_match_spec fp s = false := by simp [find_match_spec, h1]
      simp [find_loop, h1, ih, hm]
    · by_cases h2 : s.createdBy = fp.author
      · by_cases h3 : s.comment = fp.comment
        · by_cases h4 : (!fp.strict || (fp.strict && decide (s.matchers = fp.matchers))) = true
          · have hm : find_match_spec fp s = true := by
              cases hst : fp.strict <;> simp_all [find_match_spec]
            simp [find_loop, h1, h2, h3, h4, ih, hm]
          · have hm : find_match_spec fp s = false := by
              cases hst : fp.strict <;> simp_all [find_match_spec]
            simp only [Bool.not_eq_true] at h4
            simp [find_loop, h1, h2, h3, h4, ih, hm]
        · have hm : find_match_spec fp s = false := by simp [find_match_spec, h3]
          simp [find_loop, h1, h2, h3, ih, hm]
      · have hm : find_match_spec fp s = false := by simp [find_match_spec, h2]
        simp [find_loop, h1, h2, ih, hm]

/-- Expected content type (`application/json`, line 152). -/
def app_json : Str := "application/json".data

/-- Outcome of one HTTP exchange, as seen by the embedded control flow:
either a response with a status, a content-type header and a decoded body,
or a raised transport exception (one of the kinds lines 309-324 catch). -/
inductive HttpOutcome (β : Type) where
  | response (status : Nat) (contentType : Str) (body : β)
  | exn
deriving DecidableEq

/-- Result of `find_silences` (lines 137-170) as the caller observes it. -/
inductive FindRes where
  | ids (l : List Str)
  | noneRes
  | exit1
  | crash
deriving DecidableEq

/-- Embeds `find_silences` around `make_request` (lines 151-170 with lines
303-308): a non-200 status makes `make_request` call `sys.exit(1)`; a
transport exception makes `make_request` return `None`, and unpacking
`response, content = None` on line 151 raises an uncaught `TypeError`; a
200 response with an unexpected content-type logs a warning and returns
`None` (no identifiers); otherwise the decoded list (`none` models content
that does not decode to a well-formed silence list, for which
`decode_and_parse_json` returns `[]`) is filtered by the loop. -/
def find_silences_model (fp : Fingerprint) (o : HttpOutcome (Option (List Silence))) :
    FindRes :=
  match o with
  | .exn => .crash
  | .response st ct body =>
    if st = 200 then
      if ct ≠ app_json then .noneRes
      else .ids (find_loop fp (body.getD []) [])
    else .exit1

/-- Claim C4: on a decoded silence list the search selects exactly the
entries that are not expired, whose createdBy and comment equal the
fingerprint, and (under strict matching) whose matcher set is exactly the
required one — createdBy+comment equality alone sufficing otherwise — and
returns their identifiers in the backend's order. -/
theorem claim_C4 (fp : Fingerprint) (ss : List Silence) :
    find_silences_model fp (.response 200 app_json (some ss)) =
      .ids ((ss.filter (find_match_spec fp)).map Silence.id) := by
  simp [find_silences_model, find_loop_spec]

/-! ## Search failure behaviour (claim C2) -/

/-- A search result that does not end the run: a list of identifiers or the
`None` returned on a content-type mismatch. `exit1` and `crash` end the
process. -/
def find_nonfatal : FindRes → Bool
  | .ids _ => true
  | .noneRes => true
  | .exit1 => false
  | .crash => false

/-- A concrete fingerprint for the counterexamples: the plugin author and a
comment built from a concrete build context, non-strict matching. -/
def exampleFp : Fingerprint :=
  ⟨silence_author, silence_comment "7".data "org".data "repo".data "http://x".data,
    false, []⟩

/-- Counterexample to claim C2 as stated: a GET of the silence collection
that comes back with HTTP 500 does not produce "no matches found" — it makes
`make_request` call `sys.exit(1)`, ending the whole run. -/
theorem claim_C2_counterexample :
    find_nonfatal (find_silences_model exampleFp
      (.response 500 app_json (some []))) = false := by decide

/-- Claim C2 (amended): only once the GET has returned HTTP 200 is every
failure non-fatal — an unexpected content-type logs a warning and yields no
identifiers (the `None` return), and an undecodable body yields the empty
identifier list; but a non-200 status exits the process from inside
`make_request`, and a transport exception leads to an uncaught `TypeError`
when line 151 unpacks `make_request`'s `None` return. -/
theorem claim_C2 :
    (∀ fp : Fingerprint, ∀ ct : Str, ∀ body : Option (List Silence), ct ≠ app_json →
      find_silences_model fp (.response 200 ct body) = .noneRes) ∧
    (∀ fp : Fingerprint, find_silences_model fp (.response 200 app_json none) = .ids []) ∧
    (∀ fp : Fingerprint, ∀ st : Nat, ∀ ct : Str, ∀ body : Option (List Silence), st ≠ 200 →
      find_silences_model fp (.response st ct body) = .exit1) ∧
    (∀ fp : Fingerprint, find_silences_model fp .exn = .crash) := by
  refine ⟨?_, ?_, ?_, ?_⟩
  · intro fp ct body h
    simp [find_silences_model, h]
  · intro fp
    simp [find_silences_model, find_loop]
  · intro fp st ct body h
    simp [find_silences_model, h]
  · intro fp
    simp [find_silences_model]

/-- Witness for claim C2: the content-type branch and the non-200 branch at
concrete inputs. -/
theorem claim_C2_witness :
    find_silences_model exampleFp (.response 200 "text/html".data none) = .noneRes ∧
    find_silences_model exampleFp (.response 404 app_json none) = .exit1 :=
  ⟨claim_C2.1 exampleFp "text/html".data none (by decide),
    claim_C2.2.2.1 exampleFp 404 app_json none (by decide)⟩

/-! ## Create path (docker-entrypoint.py lines 338-352) and claim C3 -/

/-- Result of one create attempt as `perform_action` observes it.  The body
of the create `HttpOutcome` is the decoded `silenceID` when the response
parses to a dict carrying one; `none` models a body on which the
`json_response['silenceID']` access raises. -/
inductive CreateRes where
  | created (sid : Str)
  | ctWarn
  | exit1
  | crash
deriving DecidableEq

/-- Embeds the create branch of `perform_action` (lines 338-352) around
`make_request` (lines 303-308): non-200 exits, a transport exception makes
the unpack on line 347 raise, a 200 response with unexpected content-type
only logs a warning, and otherwise the backend-assigned identifier is
logged. -/
def create_step (o : HttpOutcome (Option Str)) : CreateRes :=
  match o with
  | .exn => .crash
  | .response st ct body =>
    if st = 200 then
      if ct ≠ app_json then .ctWarn
      else match body with
        | some sid => .created sid
        | none => .crash
    else .exit1

/-- How a whole run ends: normally (exit 0), via `sys.exit(1)`, or via an
uncaught exception. -/
inductive RunEnd where
  | finished
  | exit1
  | crash
deriving DecidableEq

/-- Embeds the create loop over the comma-separated targets (lines 334-352):
warnings and logged identifiers continue with the next target. -/
def create_run : List (HttpOutcome (Option Str)) → RunEnd
  | [] => .finished
  | o :: os =>
    match create_step o with
    | .exit1 => .exit1
    | .crash => .crash
    | .created _ => create_run os
    | .ctWarn => create_run os

/-- Counterexample to claim C3 as stated: a create that gets HTTP 200 with
content-type `text/html` is only warned about, and a run consisting of that
single target finishes normally (exit 0) instead of aborting. -/
theorem claim_C3_counterexample :
    create_step (.response 200 "text/html".data (some "abc".data)) = .ctWarn ∧
    create_run [.response 200 "text/html".data (some "abc".data)] = .finished := by
  exact ⟨by decide, by decide⟩

/-- Claim C3 (amended): a 200 response with a non-JSON content-type is only
a warning on the create path — the run continues, exactly as during search —
and the condition that actually aborts the create path is a non-200
status. -/
theorem claim_C3 :
    (∀ ct : Str, ∀ body : Option Str, ct ≠ app_json →
      create_step (.response 200 ct body) = .ctWarn) ∧
    (∀ os : List (HttpOutcome (Option Str)), ∀ ct : Str, ∀ body : Option Str,
      ct ≠ app_json → create_run (.response 200 ct body :: os) = create_run os) ∧
    (∀ fp : Fingerprint, ∀ ct : Str, ∀ body : Option (List Silence), ct ≠ app_json →
      find_silences_model fp (.response 200 ct body) = .noneRes) ∧
    (∀ st : Nat, ∀ ct : Str, ∀ body : Option Str, st ≠ 200 →
      create_step (.response st ct body) = .exit1) := by
  refine ⟨?_, ?_, ?_, ?_⟩
  · intro ct body h
    simp [create_step, h]
  · intro os ct body h
    simp [create_run, create_step, h]
  · intro fp ct body h
    simp [find_silences_model, h]
  · intro st ct body h
    simp [create_step, h]

/-- Witness for claim C3: the warning branch and the fatal branch at
concrete inputs. -/
theorem claim_C3_witness :
    create_step (.response 200 "text/plain".data (some "abc".data)) = .ctWarn ∧
    create_step (.response 400 app_json (some "abc".data)) = .exit1 :=
  ⟨claim_C3.1 "text/plain".data (some "abc".data) (by decide),
    claim_C3.2.2.2 400 app_json (some "abc".data) (by decide)⟩

/-! ## Delete path (docker-entrypoint.py lines 354-367) and claim C1 -/

/-- Outcome of one DELETE request: an HTTP response with some status, or a
transport exception (which `make_request` catches, logs and swallows). -/
inductive DelOutcome where
  | status (n : Nat)
  | exn
deriving DecidableEq

/-- A DELETE outcome that does not end the process: HTTP 200 or a caught
transport exception.  A non-200 status makes `make_request` exit. -/
def benignDel : DelOutcome → Bool
  | .status n => decide (n = 200)
  | .exn => true

/-- Embeds the `for silence_id in silence_ids` loop (lines 361-365):
returns the identifiers for which a DELETE was actually issued, and whether
the process exited inside the loop.  The `make_request` return value is
discarded here, so a transport exception just continues. -/
def delete_ids_loop (del : Str → DelOutcome) : List Str → List Str × Bool
  | [] => ([], false)
  | i :: rest =>
    match del i with
    | .status n =>
      if n = 200 then
        let r := delete_ids_loop del rest
        (i :: r.1, r.2)
      else ([i], true)
    | .exn =>
      let r := delete_ids_loop del rest
      (i :: r.1, r.2)

/-- The backend's behaviour towards one delete target: the outcome of the
silence search GET and the outcome of each DELETE by silence identifier. -/
structure DeleteTargetB where
  getOutcome : HttpOutcome (Option (List Silence))
  delOutcome : Str → DelOutcome

/-- Embeds the delete branch of `perform_action` for one target (lines
354-367): an empty or `None` search result only logs a warning. -/
def delete_target_step (fp : Fingerprint) (t : DeleteTargetB) :
    List Str × Option RunEnd :=
  match find_silences_model fp t.getOutcome with
  | .exit1 => ([], some .exit1)
  | .crash => ([], some .crash)
  | .noneRes => ([], none)
  | .ids l =>
    if l = [] then ([], none)
    else
      match delete_ids_loop t.delOutcome l with
      | (att, true) => (att, some .exit1)
      | (att, false) => (att, none)

/-- Embeds the target loop of `perform_action` for the delete action (lines
334-367): per target, the attempted DELETE identifiers, and how the run
ends. -/
def delete_run (fp : Fingerprint) : List DeleteTargetB → List (List Str) × RunEnd
  | [] => ([], .finished)
  | t :: ts =>
    match delete_target_step fp t with
    | (att, some e) => ([att], e)
    | (att, none) =>
      let r := delete_run fp ts
      (att :: r.1, r.2)

/-- A target on which the delete pass completes: the search succeeds (in the
sense of claim C2) and every issued DELETE is benign. -/
def benignTarget (fp : Fingerprint) (t : DeleteTargetB) : Bool :=
  match find_silences_model fp t.getOutcome with
  | .exit1 => false
  | .crash => false
  | .noneRes => true
  | .ids l => l.all (fun i => benignDel (t.delOutcome i))

lemma delete_ids_loop_benign (del : Str → DelOutcome) (ids : List Str)
    (h : ∀ i ∈ ids, benignDel (del i) = true) :
    delete_ids_loop del ids = (ids, false) := by
  induction ids with
  | nil => rfl
  | cons i rest ih =>
    have hi : benignDel (del i) = true := h i (by simp)
    have hrest : delete_ids_loop del rest = (rest, false) :=
      ih (fun j hj => h j (by simp [hj]))
    cases hdel : del i with
    | status n =>
      have hn : n = 200 := by
        rw [hdel] at hi
        simpa [benignDel] using hi
      simp [delete_ids_loop, hdel, hn, hrest]
    | exn => simp [delete_ids_loop, hdel, hrest]

lemma delete_ids_loop_fatal (del : Str → DelOutcome) (pre : List Str) (i : Str)
    (post : List Str) (hpre : ∀ j ∈ pre, benignDel (del j) = true)
    (hi : benignDel (del i) = false) :
    delete_ids_loop del (pre ++ i :: post) = (pre ++ [i], true) := by
  induction pre with
  | nil =>
    cases hdel : del i with
    | status n =>
      have hn : ¬ n = 200 := by
        rw [hdel] at hi
        simpa [benignDel] using hi
      simp [delete_ids_loop, hdel, hn]
    | exn => rw [hdel] at hi; simp [benignDel] at hi
  | cons p ps ih =>
    have hp : benignDel (del p) = true := hpre p (by simp)
    have hrec := ih (fun j hj => hpre j (by simp [hj]))
    cases hdel : del p with
    | status n =>
      have hn : n = 200 := by
        rw [hdel] at hp
        simpa [benignDel] using hp
      simp [delete_ids_loop, hdel, hn, hrec]
    | exn => simp [delete_ids_loop, hdel, hrec]

/-- Counterexample to claim C1 as stated: two matched silences on the first
of two targets; the DELETE for "id1" receives HTTP 404, `make_request`
exits, and neither "id2" nor the second target is ever attempted. -/
theorem claim_C1_counterexample :
    delete_run exampleFp
      [⟨.response 200 app_json (some
          [⟨"id1".data, "active".data, silence_author,
              silence_comment "7".data "org".data "repo".data "http://x".data, []⟩,
            ⟨"id2".data, "active".data, silence_author,
              silence_comment "7".data "org".data "repo".data "http://x".data, []⟩]),
          fun i => if i = "id1".data then .status 404 else .status 200⟩,
        ⟨.response 200 app_json (some []), fun _ => .status 200⟩] =
      ([["id1".data]], .exit1) := by decide

/-- Claim C1 (amended): on the delete path a transport exception for one
DELETE is non-fatal — the loop continues with the remaining identifiers and
targets — but a DELETE receiving a non-200 status exits the process from
inside `make_request`: the matched identifiers after it and the remaining
targets are not attempted.  When every search succeeds and every DELETE is
benign, the run completes. -/
theorem claim_C1 :
    (∀ del : Str → DelOutcome, ∀ ids : List Str,
      (∀ i ∈ ids, benignDel (del i) = true) →
      delete_ids_loop del ids = (ids, false)) ∧
    (∀ del : Str → DelOutcome, ∀ pre : List Str, ∀ i : Str, ∀ post : List Str,
      (∀ j ∈ pre, benignDel (del j) = true) → benignDel (del i) = false →
      delete_ids_loop del (pre ++ i :: post) = (pre ++ [i], true)) ∧
    (∀ fp : Fingerprint, ∀ ts : List DeleteTargetB,
      (∀ t ∈ ts, benignTarget fp t = true) →
      (delete_run fp ts).2 = .finished) := by
  refine ⟨delete_ids_loop_benign, delete_ids_loop_fatal, ?_⟩
  intro fp ts h
  induction ts with
  | nil => rfl
  | cons t ts ih =>
    have ht : benignTarget fp t = true := h t (by simp)
    have hrest := ih (fun u hu => h u (by simp [hu]))
    unfold benignTarget at ht
    cases hf : find_silences_model fp t.getOutcome with
    | exit1 => rw [hf] at ht; simp at ht
    | crash => rw [hf] at ht; simp at ht
    | noneRes => simp [delete_run, delete_target_step, hf, hrest]
    | ids l =>
      rw [hf] at ht
      by_cases hl : l = []
      · simp [delete_run, delete_target_step, hf, hl, hrest]
      · have hloop : delete_ids_loop t.delOutcome l = (l, false) :=
          delete_ids_loop_benign t.delOutcome l (by
            intro i hi
            have := List.all_eq_true.1 ht i hi
            simpa using this)
        simp [delete_run, delete_target_step, hf, hl, hloop, hrest]

/-- Witness for claim C1: a transport exception on the only identifier still
attempts it and does not abort, and an empty run of targets finishes. -/
theorem claim_C1_witness :
    delete_ids_loop (fun _ => DelOutcome.exn) ["a".data] = (["a".data], false) ∧
    (delete_run exampleFp []).2 = .finished :=
  ⟨claim_C1.1 (fun _ => DelOutcome.exn) ["a".data] (fun i _ => rfl),
    claim_C1.2.2 exampleFp [] (by simp)⟩

/-! ## Custom headers and the module-global header map
(docker-entrypoint.py lines 24-27 and 240-246) -/

/-- A Python dict of header names to values, as an association list with
unique keys. -/
abbrev HeadersT := List (Str × Str)

/-- Dict lookup. -/
def dictGet (d : HeadersT) (k : Str) : Option Str :=
  (d.find? (fun p => decide (p.1 = k))).map Prod.snd

/-- Python dict assignment `d[k] = v`: replace the value in place when the
key exists, append otherwise. -/
def dictSet : HeadersT → Str → Str → HeadersT
  | [], k, v => [(k, v)]
  | p :: d, k, v => if p.1 = k then (k, v) :: d else p :: dictSet d k v

/-- Python `base.update(upd)`: assign every entry of `upd` into `base`. -/
def dictUpdate (base upd : HeadersT) : HeadersT :=
  upd.foldl (fun acc kv => dictSet acc kv.1 kv.2) base

/-- The module-global base header map (lines 24-27). -/
def request_headers : HeadersT :=
  [("Content-Type".data, "application/json; charset = UTF-8".data),
    ("User-Agent".data, plugin_user_agent)]

/-- Python `str.split(sep)` for a one-character separator: splits on every
occurrence and keeps empty pieces. -/
def pySplit (sep : Char) : Str → List Str
  | [] => [[]]
  | c :: cs =>
    if c = sep then [] :: pySplit sep cs
    else match pySplit sep cs with
      | [] => [[c]]
      | h :: t => (c :: h) :: t

/-- The characters Python `str.strip()` removes. -/
def pySpace (c : Char) : Bool :=
  decide (c = ' ') || decide (c = '\t') || decide (c = '\n') || decide (c = '\r') ||
    decide (c = '\x0b') || decide (c = '\x0c')

/-- Python `str.strip()`. -/
def pyStrip (s : Str) : Str :=
  ((s.dropWhile pySpace).reverse.dropWhile pySpace).reverse

/-- Embeds the header loop of `make_request` (lines 242-245): each
comma-separated entry is unpacked by `k, v = header_string.split(':')`,
which raises `ValueError` unless the split has exactly two pieces. -/
def parse_headers_go : List Str → HeadersT → Except PyErr HeadersT
  | [], acc => .ok acc
  | e :: es, acc =>
    match pySplit ':' e with
    | [k, v] => parse_headers_go es (dictSet acc (pyStrip k) (pyStrip v))
    | _ => .error .valueError

/-- The `custom_headers` dict built from the `PLUGIN_HEADERS` value. -/
def parse_custom_headers (cfg : Str) : Except PyErr HeadersT :=
  parse_headers_go (pySplit ',' cfg) []

/-- Embeds lines 241-246 of `make_request` together with the use of the
global on line 296: given the `PLUGIN_HEADERS` value and the current global
header map, produce the new global map (mutated in place by
`request_headers.update(custom_headers)`) and the headers actually sent,
which are the same object. -/
def make_request_headers (cfg : Str) (g : HeadersT) :
    Except PyErr (HeadersT × HeadersT) :=
  if cfg = [] then .ok (g, g)
  else match parse_custom_headers cfg with
    | .error e => .error e
    | .ok custom => .ok (dictUpdate g custom, dictUpdate g custom)

/-- The global header map after `n` calls to `make_request` within one
process, all with the same `PLUGIN_HEADERS` value; the map is never
restored between calls. -/
def headers_after_calls (cfg : Str) : Nat → HeadersT → Except PyErr HeadersT
  | 0, g => .ok g
  | n + 1, g =>
    match make_request_headers cfg g with
    | .error e => .error e
    | .ok (g2, _) => headers_after_calls cfg n g2

/-- The keys of a dict are pairwise distinct. -/
def keysNodup (d : HeadersT) : Prop := (d.map Prod.fst).Nodup

lemma dictGet_cons (p : Str × Str) (d : HeadersT) (k : Str) :
    dictGet (p :: d) k = if p.1 = k then some p.2 else dictGet d k := by
  by_cases h : p.1 = k
  · simp [dictGet, List.find?, h]
  · have hd : decide (p.1 = k) = false := by simpa using h
    simp [dictGet, List.find?, hd, h]

lemma dictGet_dictSet_same (d : HeadersT) (k v : Str) :
    dictGet (dictSet d k v) k = some v := by
  induction d with
  | nil => simp [dictSet, dictGet_cons]
  | cons p d ih =>
    by_cases h : p.1 = k
    · simp [dictSet, if_pos h, dictGet_cons]
    · simp [dictSet, if_neg h, dictGet_cons, h, ih]

lemma dictGet_dictSet_other (d : HeadersT) (k v k2 : Str) (h : k2 ≠ k) :
    dictGet (dictSet d k v) k2 = dictGet d k2 := by
  have hkk : ¬ k = k2 := fun habs => h habs.symm
  induction d with
  | nil => simp [dictSet, dictGet_cons, hkk, dictGet]
  | cons p d ih =>
    by_cases hp : p.1 = k
    · have hp2 : ¬ p.1 = k2 := by rw [hp]; exact hkk
      simp [dictSet, if_pos hp, dictGet_cons, hkk, hp2]
    · simp [dictSet, if_neg hp, dictGet_cons, ih]

lemma mem_keys_dictSet (d : HeadersT) (k v x : Str)
    (hx : x ∈ (dictSet d k v).map Prod.fst) : x = k ∨ x ∈ d.map Prod.fst := by
  induction d with
  | nil => simp [dictSet] at hx; simp [hx]
  | cons p d ih =>
    by_cases h : p.1 = k
    · simp [dictSet, h] at hx
      rcases hx with rfl | hx
      · exact Or.inl rfl
      · exact Or.inr (by simp [hx])
    · simp [dictSet, h] at hx
      rcases hx with rfl | hx
      · exact Or.inr (by simp)
      · rcases ih (by simpa using hx) with h1 | h1
        · exact Or.inl h1
        · exact Or.inr (by simp [h1])

lemma dictSet_keysNodup (d : HeadersT) (k v : Str) (h : keysNodup d) :
    keysNodup (dictSet d k v) := by
  induction d with
  | nil => simp [dictSet, keysNodup]
  | cons p d ih =>
    unfold keysNodup at h
    rw [List.map_cons, List.nodup_cons] at h
    by_cases hp : p.1 = k
    · unfold keysNodup
      simp only [dictSet, if_pos hp]
      rw [List.map_cons, List.nodup_cons]
      exact ⟨by rw [← hp]; exact h.1, h.2⟩
    · unfold keysNodup
      simp only [dictSet, if_neg hp]
      rw [List.map_cons, List.nodup_cons]
      refine ⟨?_, ih h.2⟩
      intro habs
      rcases mem_keys_dictSet d k v p.1 habs with h1 | h1
      · exact hp h1
      · exact h.1 h1

lemma dictUpdate_not_mem (us : List (Str × Str)) :
    ∀ g : HeadersT, ∀ k : Str, k ∉ us.map Prod.fst →
      dictGet (dictUpdate g us) k = dictGet g k := by
  induction us with
  | nil => intro g k _; rfl
  | cons u us ih =>
    intro g k hk
    rw [List.map_cons] at hk
    have h1 : k ≠ u.1 := fun habs => hk (by simp [habs])
    have h2 : k ∉ us.map Prod.fst := fun habs => hk (by simp [habs])
    show dictGet (dictUpdate (dictSet g u.1 u.2) us) k = dictGet g k
    rw [ih (dictSet g u.1 u.2) k h2]
    exact dictGet_dictSet_other g u.1 u.2 k h1

lemma dictGet_dictUpdate_of_mem (us : List (Str × Str)) :
    ∀ g : HeadersT, ∀ k v : Str, keysNodup us → dictGet us k = some v →
      dictGet (dictUpdate g us) k = some v := by
  induction us with
  | nil => intro g k v _ h; simp [dictGet, List.find?] at h
  | cons u us ih =>
    intro g k v hnd hget
    unfold keysNodup at hnd
    rw [List.map_cons, List.nodup_cons] at hnd
    by_cases h : u.1 = k
    · subst h
      have hv : v = u.2 := by
        rw [dictGet_cons, if_pos rfl] at hget
        exact (Option.some_inj.1 hget).symm
      show dictGet (dictUpdate (dictSet g u.1 u.2) us) u.1 = some v
      rw [dictUpdate_not_mem us (dictSet g u.1 u.2) u.1 hnd.1]
      rw [dictGet_dictSet_same, hv]
    · have hget2 : dictGet us k = some v := by
        rw [dictGet_cons, if_neg h] at hget
        exact hget
      exact ih (dictSet g u.1 u.2) k v hnd.2 hget2

lemma parse_headers_go_nodup (es : List Str) :
    ∀ acc d : HeadersT, keysNodup acc → parse_headers_go es acc = .ok d →
      keysNodup d := by
  induction es with
  | nil =>
    intro acc d hacc h
    simp [parse_headers_go] at h
    rw [← h]; exact hacc
  | cons e es ih =>
    intro acc d hacc h
    unfold parse_headers_go at h
    cases hsp : pySplit ':' e with
    | nil => rw [hsp] at h; simp at h
    | cons a t =>
      cases t with
      | nil => rw [hsp] at h; simp at h
      | cons b t2 =>
        cases t2 with
        | nil =>
          rw [hsp] at h
          exact ih _ d (dictSet_keysNodup acc (pyStrip a) (pyStrip b) hacc) h
        | cons c3 t3 => rw [hsp] at h; simp at h

lemma parse_custom_headers_nodup (cfg : Str) (custom : HeadersT)
    (h : parse_custom_headers cfg = .ok custom) : keysNodup custom :=
  parse_headers_go_nodup (pySplit ',' cfg) [] custom (by simp [keysNodup]) h

lemma headers_after_calls_step (cfg : Str) (custom : HeadersT) (n : Nat) (g : HeadersT)
    (h0 : cfg ≠ []) (h1 : parse_custom_headers cfg = .ok custom) :
    headers_after_calls cfg (n + 1) g = headers_after_calls cfg n (dictUpdate g custom) := by
  have hmk : make_request_headers cfg g = .ok (dictUpdate g custom, dictUpdate g custom) := by
    simp [make_request_headers, h0, h1]
  conv_lhs => rw [headers_after_calls, hmk]

lemma headers_after_calls_inv (cfg : Str) (custom : HeadersT) (k v : Str)
    (h0 : cfg ≠ []) (h1 : parse_custom_headers cfg = .ok custom)
    (hnd : keysNodup custom) (h2 : dictGet custom k = some v) :
    ∀ m : Nat, ∀ g : HeadersT, ∃ gN : HeadersT,
      headers_after_calls cfg (m + 1) g = .ok gN ∧ dictGet gN k = some v := by
  intro m
  induction m with
  | zero =>
    intro g
    refine ⟨dictUpdate g custom, ?_, dictGet_dictUpdate_of_mem custom g k v hnd h2⟩
    rw [headers_after_calls_step cfg custom 0 g h0 h1]
    rfl
  | succ m ih =>
    intro g
    rcases ih (dictUpdate g custom) with ⟨gN, hrun, hget⟩
    refine ⟨gN, ?_, hget⟩
    rw [headers_after_calls_step cfg custom (m + 1) g h0 h1]
    exact hrun

/-- Claim C9: once one call has parsed the configured headers, the merge
into the module-global map persists — for every later call count the global
still maps each custom header to its value, the map is never restored, and
the next request again sends the merged map. -/
theorem claim_C9 (cfg : Str) (custom g : HeadersT) (k v : Str) (n : Nat)
    (h0 : cfg ≠ []) (h1 : parse_custom_headers cfg = .ok custom)
    (h2 : dictGet custom k = some v) (h3 : 1 ≤ n) :
    ∃ gN : HeadersT, headers_after_calls cfg n g = .ok gN ∧
      dictGet gN k = some v ∧
      make_request_headers cfg gN = .ok (dictUpdate gN custom, dictUpdate gN custom) ∧
      dictGet (dictUpdate gN custom) k = some v := by
  have hnd : keysNodup custom := parse_custom_headers_nodup cfg custom h1
  obtain ⟨m, rfl⟩ : ∃ m, n = m + 1 := ⟨n - 1, by omega⟩
  rcases headers_after_calls_inv cfg custom k v h0 h1 hnd h2 m g with ⟨gN, hrun, hget⟩
  refine ⟨gN, hrun, hget, ?_, dictGet_dictUpdate_of_mem custom gN k v hnd h2⟩
  simp [make_request_headers, h0, h1]

/-- Witness for claim C9: after two requests with `PLUGIN_HEADERS` set to
"X-A:1,X-B:2", the global map still carries `X-A`. -/
theorem claim_C9_witness :
    ∃ gN : HeadersT,
      headers_after_calls "X-A:1,X-B:2".data 2 request_headers = .ok gN ∧
      dictGet gN "X-A".data = some "1".data ∧
      make_request_headers "X-A:1,X-B:2".data gN =
        .ok (dictUpdate gN [("X-A".data, "1".data), ("X-B".data, "2".data)],
          dictUpdate gN [("X-A".data, "1".data), ("X-B".data, "2".data)]) ∧
      dictGet (dictUpdate gN [("X-A".data, "1".data), ("X-B".data, "2".data)])
        "X-A".data = some "1".data :=
  claim_C9 "X-A:1,X-B:2".data [("X-A".data, "1".data), ("X-B".data, "2".data)]
    request_headers "X-A".data "1".data 2 (by decide) (by rfl) (by rfl) (by decide)

lemma pySplit_length (sep : Char) (l : Str) :
    (pySplit sep l).length = l.count sep + 1 := by
  induction l with
  | nil => simp [pySplit]
  | cons c cs ih =>
    by_cases h : c = sep
    · simp [pySplit, h, List.count_cons, ih]
    · cases hsp : pySplit sep cs with
      | nil => rw [hsp] at ih; simp at ih
      | cons hd tl =>
        rw [hsp] at ih
        have hcount : ¬ sep = c := fun habs => h habs.symm
        simp [pySplit, h, hsp, List.count_cons, hcount] at ih ⊢
        omega

lemma parse_headers_go_error (entry : Str)
    (hbad : (pySplit ':' entry).length ≠ 2) :
    ∀ es : List Str, ∀ acc : HeadersT, entry ∈ es →
      parse_headers_go es acc = .error .valueError := by
  intro es
  induction es with
  | nil => intro acc h; simp at h
  | cons e es ih =>
    intro acc hmem
    cases hsp : pySplit ':' e with
    | nil => simp [parse_headers_go, hsp]
    | cons a t =>
      cases t with
      | nil => simp [parse_headers_go, hsp]
      | cons b t2 =>
        cases t2 with
        | nil =>
          have hmem2 : entry ∈ es := by
            rcases List.mem_cons.1 hmem with rfl | h
            · rw [hsp] at hbad; simp at hbad
            · exact h
          simp only [parse_headers_go, hsp]
          exact ih _ hmem2
        | cons c3 t3 => simp [parse_headers_go, hsp]

/-- Claim C10: a configured header entry whose text does not contain exactly
one colon makes the two-way unpack `k, v = header_string.split(':')` raise
an uncaught `ValueError`, aborting the run before the request is sent. -/
theorem claim_C10 (cfg entry : Str) (g : HeadersT)
    (h0 : cfg ≠ []) (h1 : entry ∈ pySplit ',' cfg) (h2 : entry.count ':' ≠ 1) :
    make_request_headers cfg g = .error .valueError := by
  have hbad : (pySplit ':' entry).length ≠ 2 := by
    rw [pySplit_length]
    omega
  have herr : parse_custom_headers cfg = .error .valueError :=
    parse_headers_go_error entry hbad (pySplit ',' cfg) [] h1
  simp [make_request_headers, h0, herr]

/-- Witness for claim C10: a single header entry whose value is a URL with a
port carries two colons, and the run aborts. -/
theorem claim_C10_witness :
    make_request_headers "Location:http://h:80".data request_headers =
      .error .valueError :=
  claim_C10 "Location:http://h:80".data "Location:http://h:80".data request_headers
    (by decide) (by decide) (by decide)

end DroneAM
